import Mathlib

/-!
Shallow embedding of the dify-plugin-agent-mcp_sse repository
(src/utils/mcp_client.py and src/strategies/base.py).

Conventions of the embedding:
- Python values decoded from JSON are modelled by the inductive type Json
  (numbers as Int; floats do not occur in the verified paths).
- Python dictionaries are association lists; assignment d[k] = v replaces
  the binding in place when the key is present and appends otherwise,
  matching insertion-order semantics of Python dicts.
- A Python call that may raise is modelled as Except String A, the String
  being the exception message; a returned value is Except.ok.
- External collaborators (the HTTP client, the SSE framing library, the
  json module, urllib.parse) are parameters of the embedded functions:
  the embedding fixes only the logic written in the repository itself.
-/

/-- Model of a decoded JSON / Python value as it flows through the client. -/
inductive Json where
  | null : Json
  | bool (b : Bool) : Json
  | num (n : Int) : Json
  | str (s : String) : Json
  | arr (xs : List Json) : Json
  | obj (kvs : List (String × Json)) : Json

mutual

/-- Structural equality on modelled values (Python ==). -/
def Json.beq : Json → Json → Bool
  | .null, .null => true
  | .bool a, .bool b => a == b
  | .num a, .num b => a == b
  | .str a, .str b => a == b
  | .arr xs, .arr ys => Json.beqList xs ys
  | .obj xs, .obj ys => Json.beqObj xs ys
  | _, _ => false

def Json.beqList : List Json → List Json → Bool
  | [], [] => true
  | x :: xs, y :: ys => Json.beq x y && Json.beqList xs ys
  | _, _ => false

def Json.beqObj : List (String × Json) → List (String × Json) → Bool
  | [], [] => true
  | (k, v) :: xs, (l, w) :: ys => k == l && Json.beq v w && Json.beqObj xs ys
  | _, _ => false

end

instance : BEq Json := ⟨Json.beq⟩

/-- Python truthiness of a decoded value (used by the idiom x or y). -/
def Json.truthy : Json → Bool
  | .null => false
  | .bool b => b
  | .num n => n != 0
  | .str s => s ≠ ""
  | .arr xs => !xs.isEmpty
  | .obj kvs => !kvs.isEmpty

/-- Lookup in a string-keyed Python dict (d.get(k) / k in d). -/
def dgetS {α : Type} (d : List (String × α)) (k : String) : Option α :=
  match d with
  | [] => none
  | (k', v) :: rest => if k' = k then some v else dgetS rest k

/-- Python dict assignment d[k] = v for string keys: replace in place or append. -/
def dsetS {α : Type} (d : List (String × α)) (k : String) (v : α) : List (String × α) :=
  match d with
  | [] => [(k, v)]
  | (k', v') :: rest => if k' = k then (k, v) :: rest else (k', v') :: dsetS rest k v

/-- Lookup in a Json-keyed Python dict. -/
def dgetJ {α : Type} (d : List (Json × α)) (k : Json) : Option α :=
  match d with
  | [] => none
  | (k', v) :: rest => if Json.beq k' k then some v else dgetJ rest k

/-- Python dict assignment for Json keys. -/
def dsetJ {α : Type} (d : List (Json × α)) (k : Json) (v : α) : List (Json × α) :=
  match d with
  | [] => [(k, v)]
  | (k', v') :: rest => if Json.beq k' k then (k, v) :: rest else (k', v') :: dsetJ rest k v

/-- Python d.pop(k, None) for Json keys: drop the first binding of k. -/
def dpopJ {α : Type} (d : List (Json × α)) (k : Json) : List (Json × α) :=
  match d with
  | [] => []
  | (k', v') :: rest => if Json.beq k' k then rest else (k', v') :: dpopJ rest k

/-- Membership of a key in a Json-keyed dict (k in d). -/
def dmemJ {α : Type} (d : List (Json × α)) (k : Json) : Bool :=
  (dgetJ d k).isSome

/-- Python k in j for a decoded object: key membership; get with default. -/
def Json.hasKey (j : Json) (k : String) : Bool :=
  match j with
  | .obj kvs => (dgetS kvs k).isSome
  | _ => false

/-- Python j.get(k, d): defined on dicts only, AttributeError otherwise. -/
def Json.pyGet (j : Json) (k : String) (d : Json) : Except String Json :=
  match j with
  | .obj kvs => .ok ((dgetS kvs k).getD d)
  | _ => .error "AttributeError: get"

/-- Python j[k]: KeyError when absent, TypeError on a non-dict. -/
def Json.pyIndex (j : Json) (k : String) : Except String Json :=
  match j with
  | .obj kvs =>
      match dgetS kvs k with
      | some v => .ok v
      | none => .error ("KeyError: " ++ k)
  | _ => .error "TypeError: value is not subscriptable"

mutual

/-- Python repr of a decoded value, used when a result is spliced into a string. -/
def Json.repr : Json → String
  | .null => "None"
  | .bool b => if b then "True" else "False"
  | .num n => toString n
  | .str s => "\x27" ++ s ++ "\x27"
  | .arr xs => "[" ++ String.intercalate ", " (Json.reprList xs) ++ "]"
  | .obj kvs => "\x7b" ++ String.intercalate ", " (Json.reprObj kvs) ++ "\x7d"

def Json.reprList : List Json → List String
  | [] => []
  | x :: xs => Json.repr x :: Json.reprList xs

def Json.reprObj : List (String × Json) → List String
  | [] => []
  | (k, v) :: kvs => ("\x27" ++ k ++ "\x27: " ++ Json.repr v) :: Json.reprObj kvs

end

/-- Auxiliary for Python substring membership. -/
def strContainsAux (needle : List Char) : List Char → Bool
  | [] => needle.isEmpty
  | c :: rest => needle.isPrefixOf (c :: rest) || strContainsAux needle rest

/-- Python needle in hay on strings. -/
def strContains (hay needle : String) : Bool := strContainsAux needle.toList hay.toList

/-!
Embedding of src/strategies/base.py:
FilterHistoryMessageByModelFeaturesMixin._iter_cleanup_history_prompt_messages.
The dify-plugin entity types it consumes are modelled by the minimal
structures below (only the fields the helper reads).
-/

/-- PromptMessageContentType values distinguished by the filter. -/
inductive PromptMessageContentType where
  | text | image | audio | video | document
  deriving DecidableEq

/-- ModelFeature values inspected by the filter. -/
inductive ModelFeature where
  | vision | audio | video | document
  deriving DecidableEq

/-- One typed content item of a history message (payload kept opaque). -/
structure PromptMessageContent where
  type : PromptMessageContentType
  data : String

/-- Content of a history message: either a plain (non-list) value or a list of items. -/
inductive PromptContent where
  | plain (s : String) : PromptContent
  | items (l : List PromptMessageContent) : PromptContent

/-- A conversation-history message (role, content, name as read by the helper). -/
structure PromptMessage where
  role : String
  content : PromptContent
  name : Option String

/-- The item-retention test written in the list comprehension of
_iter_cleanup_history_prompt_messages (src/strategies/base.py lines 19-32). -/
def historyItemKept (features : List ModelFeature) (item : PromptMessageContent) : Bool :=
  item.type == PromptMessageContentType.text
  || ((item.type == PromptMessageContentType.image
       || item.type == PromptMessageContentType.video
       || item.type == PromptMessageContentType.document)
      && features.contains ModelFeature.vision)
  || (item.type == PromptMessageContentType.audio && features.contains ModelFeature.audio)
  || (item.type == PromptMessageContentType.video && features.contains ModelFeature.video)
  || (item.type == PromptMessageContentType.document && features.contains ModelFeature.document)

/-- Embedding of _iter_cleanup_history_prompt_messages: the generator is the
resulting list; a message whose content is a list is rebuilt with the same
role and name and the filtered content, any other message is yielded as is. -/
def iter_cleanup_history_prompt_messages (features : List ModelFeature)
    (history : List PromptMessage) : List PromptMessage :=
  history.map fun msg =>
    match msg.content with
    | .items l =>
        { role := msg.role, content := .items (l.filter (historyItemKept features)),
          name := msg.name }
    | .plain _ => msg

/-!
Embedding of src/utils/mcp_client.py, class McpSseClient.
The HTTP layer and urllib.parse are external: urljoin and urlparse enter as
parameters, the POST outcome as a Boolean, and the stream of "message"
events delivered by the server as a list of decoded envelopes.
-/

/-- urlparse output restricted to the two fields the client compares. -/
structure UrlParts where
  scheme : String
  netloc : String

/-- Listener-side state as observed by connect(): the endpoint URL and the
three signalling flags (source lines 56-64). -/
structure EndpointOutcome where
  endpoint_url : Option String
  connected : Bool
  thread_exception : Option String
  error_event : Bool

/-- Python j.get(k, d) restricted to str results is not needed; this is
Python str(x) as used inside f-strings: bare text for strings, repr otherwise. -/
def Json.pyStr : Json → String
  | .str s => s
  | j => j.repr

/-- Python k in j: key membership on dicts, element membership on lists,
substring on strings, TypeError otherwise. -/
def Json.pyContains (j : Json) (k : String) : Except String Bool :=
  match j with
  | .obj kvs => .ok (dgetS kvs k).isSome
  | .arr xs => .ok (xs.any fun x => Json.beq x (.str k))
  | .str s => .ok (strContains s k)
  | _ => .error "TypeError: argument is not a container"

/-- Handling of one endpoint SSE event by _listen_messages (lines 84-94),
together with the except handler of lines 102-105: the connected flag is set
before the origin check, a mismatch raises ValueError which the handler
records as the thread exception and signals as the error event. -/
def listen_endpoint_event (urljoin : String → String → String)
    (urlparse : String → UrlParts) (url : String) (data : String) : EndpointOutcome :=
  let endpoint_url := urljoin url data
  let url_parsed := urlparse url
  let endpoint_parsed := urlparse endpoint_url
  if url_parsed.netloc ≠ endpoint_parsed.netloc || url_parsed.scheme ≠ endpoint_parsed.scheme then
    { endpoint_url := some endpoint_url, connected := true,
      thread_exception :=
        some ("Endpoint origin does not match connection origin: " ++ endpoint_url),
      error_event := true }
  else
    { endpoint_url := some endpoint_url, connected := true,
      thread_exception := none, error_event := false }

/-- The connect() wait loop (lines 140-150) observing the listener state after
the endpoint event was handled: the error event is checked first and re-raises
the recorded thread exception (the origin-mismatch ValueError is raised as is),
then the connected flag ends the wait; a listener that finished with neither
flag set is reported as a dead thread. -/
def McpSseClient.connect_wait (o : EndpointOutcome) : Except String Unit :=
  if o.error_event then
    .error ((o.thread_exception).getD "")
  else if o.connected then .ok ()
  else .error "MCP Server SSE listener thread died unexpectedly!"

/-- Handling of one message SSE event by _listen_messages (lines 95-99): the
decoded envelope is stored under its id field; a missing id kills the
listener thread (KeyError escapes to the except handler). -/
def listen_message_event (message_dict : List (Json × Json)) (message : Json) :
    Except String (List (Json × Json)) :=
  match message.pyIndex "id" with
  | .error e => .error e
  | .ok i => .ok (dsetJ message_dict i message)

/-- The wait loop of send_message (lines 127-134) interleaved with the
listener: each delivered envelope is stored by the listener, then the waiter
wakes and re-checks the table for its own id, popping and returning the entry
once present. none models the caller blocking forever (no further wake), also
when the listener dies on a malformed envelope. -/
def wait_for_response (message_id : Json) (message_dict : List (Json × Json)) :
    List Json → Option (Json × List (Json × Json))
  | [] => none
  | m :: rest =>
    match listen_message_event message_dict m with
    | .error _ => none
    | .ok dict' =>
      if dmemJ dict' message_id then
        some ((dgetJ dict' message_id).getD Json.null, dpopJ dict' message_id)
      else wait_for_response message_id dict' rest

/-- Caller-visible state of an event-stream client when send_message runs. -/
structure McpSseClientState where
  endpoint_url : Option String
  message_dict : List (Json × Json)
  thread_exception : Option String

/-- McpSseClient.send_message (lines 107-135). The POST outcome enters as a
Boolean; deliveries is the stream of message envelopes the listener will
store after the POST. The ok-some result is the correlated response together
with the table left behind; ok-none models blocking forever. -/
def McpSseClient.send_message (st : McpSseClientState) (post_is_success : Bool)
    (deliveries : List Json) (data : Json) :
    Except String (Option (Json × List (Json × Json))) :=
  match st.endpoint_url with
  | none =>
      match st.thread_exception with
      | some e => .error ("MCP Server connection failed: " ++ e)
      | none => .error "Please call connect() first"
  | some _ =>
      if post_is_success then
        if data.hasKey "id" then
          match data.pyIndex "id" with
          | .error e => .error e
          | .ok message_id => .ok (wait_for_response message_id st.message_dict deliveries)
        else .ok (some (Json.obj [], st.message_dict))
      else .error "MCP Server response: HTTP status error"

/-- Request envelope of McpSseClient.initialize_handshake (lines 162-174); the uuid hex
id enters as a parameter. -/
def sse_init_data (gen_id : String) : Json :=
  Json.obj [("jsonrpc", .str "2.0"), ("id", .str gen_id), ("method", .str "initialize"),
    ("params", Json.obj [("protocolVersion", .str "2024-11-05"),
      ("capabilities", Json.obj []),
      ("clientInfo", Json.obj [("name", .str "MCP HTTP with SSE Client"),
        ("version", .str "1.0.0")])])]

/-- The id-less notification envelope (lines 178-182 and 288-292). -/
def notifications_initialized_data : Json :=
  Json.obj [("jsonrpc", .str "2.0"), ("method", .str "notifications/initialized"),
    ("params", Json.obj [])]

/-- Request envelope of McpSseClient.list_tools (lines 188-193). -/
def sse_tools_data (gen_id : String) : Json :=
  Json.obj [("jsonrpc", .str "2.0"), ("id", .str gen_id), ("method", .str "tools/list"),
    ("params", Json.obj [])]

/-- Request envelope of McpSseClient.call_tool (lines 200-208). -/
def sse_call_data (gen_id : String) (tool_name : String) (tool_args : Json) : Json :=
  Json.obj [("jsonrpc", .str "2.0"), ("id", .str gen_id), ("method", .str "tools/call"),
    ("params", Json.obj [("name", .str tool_name), ("arguments", tool_args)])]

/-- The common error-field check of the protocol methods (lines 176-177 and
elsewhere): raise when the decoded response carries an error field; the
membership test itself may raise on a non-container response. -/
def raise_on_error_field (label : String) (response : Json) :
    Except String Unit :=
  match response.pyContains "error" with
  | .error e => .error e
  | .ok true =>
    match response.pyIndex "error" with
    | .error e => .error e
    | .ok e => .error ("MCP Server " ++ label ++ " error: " ++ e.pyStr)
  | .ok false => .ok ()

/-- The shared result-extraction of list_tools / call_tool:
response.get("result", dict()).get(field, list()). -/
def extract_result_field (field : String) (response : Json) : Except String Json :=
  match response.pyGet "result" (Json.obj []) with
  | .error e => .error e
  | .ok result => result.pyGet field (Json.arr [])

/-- McpSseClient.initialize_handshake (lines 161-185), generic over the send round trip. -/
def McpSseClient.initialize_handshake (gen_id : String) (send : Json → Except String Json) :
    Except String Unit :=
  match send (sse_init_data gen_id) with
  | .error e => .error e
  | .ok response =>
    match raise_on_error_field "initialize" response with
    | .error e => .error e
    | .ok _ =>
      match send notifications_initialized_data with
      | .error e => .error e
      | .ok response2 => raise_on_error_field "notifications/initialized" response2

/-- McpSseClient.list_tools (lines 187-197), generic over the send round trip. -/
def McpSseClient.list_tools (gen_id : String) (send : Json → Except String Json) :
    Except String Json :=
  match send (sse_tools_data gen_id) with
  | .error e => .error e
  | .ok response =>
    match raise_on_error_field "tools/list" response with
    | .error e => .error e
    | .ok _ => extract_result_field "tools" response

/-- McpSseClient.call_tool (lines 199-212), generic over the send round trip. -/
def McpSseClient.call_tool (gen_id : String) (tool_name : String) (tool_args : Json)
    (send : Json → Except String Json) : Except String Json :=
  match send (sse_call_data gen_id tool_name tool_args) with
  | .error e => .error e
  | .ok response =>
    match raise_on_error_field "tools/call" response with
    | .error e => .error e
    | .ok _ => extract_result_field "content" response

/-!
Embedding of src/utils/mcp_client.py, class McpStreamableHttpClient.
The HTTP response enters as a record; the SSE framing of the body and the
json module enter as the parameters iter_sse and json_loads.
-/

/-- One framed server-sent event as produced by the SSE library. -/
structure SseEvent where
  event : String
  data : String

/-- The slice of an httpx response that send_message inspects. -/
structure HttpResponse where
  is_success : Bool
  headers : List (String × String)
  content : String

/-- Caller-visible state of a streamable client: the sticky session id. -/
structure McpStreamableHttpClientState where
  session_id : Option String

/-- The event-stream branch of McpStreamableHttpClient.send_message
(lines 260-263): every event must be named message, each payload is decoded
and overwrites the running result, so the last payload wins. -/
def sse_message_fold (json_loads : String → Except String Json) :
    List SseEvent → Json → Except String Json
  | [], message => .ok message
  | e :: rest, _ =>
    if e.event ≠ "message" then .error ("Unknown Server-Sent Event: " ++ e.event)
    else
      match json_loads e.data with
      | .error err => .error err
      | .ok m => sse_message_fold json_loads rest m

/-- McpStreamableHttpClient.send_message (lines 236-269): status check, sticky
session capture, empty-body short cut, then content-type directed decoding. -/
def McpStreamableHttpClient.send_message (iter_sse : String → List SseEvent)
    (json_loads : String → Except String Json)
    (st : McpStreamableHttpClientState) (resp : HttpResponse) :
    Except String (McpStreamableHttpClientState × Json) :=
  if !resp.is_success then
    .error "MCP Server response: HTTP status error"
  else
    let st' := if (dgetS resp.headers "mcp-session-id").isSome then
        { session_id := dgetS resp.headers "mcp-session-id" } else st
    if resp.content = "" then .ok (st', Json.obj [])
    else
      let content_type := (dgetS resp.headers "content-type").getD "None"
      if strContains content_type "text/event-stream" then
        match sse_message_fold json_loads (iter_sse resp.content) (Json.obj []) with
        | .error e => .error e
        | .ok message => .ok (st', message)
      else if strContains content_type "application/json" then
        match json_loads resp.content with
        | .error e => .error e
        | .ok j => .ok (st', if j.truthy then j else Json.obj [])
      else .error ("Unsupported Content-Type: " ++ content_type)

/-- Request envelope of McpStreamableHttpClient.initialize_handshake (lines 272-284). -/
def http_init_data : Json :=
  Json.obj [("jsonrpc", .str "2.0"), ("id", .num 0), ("method", .str "initialize"),
    ("params", Json.obj [("protocolVersion", .str "2024-11-05"),
      ("capabilities", Json.obj []),
      ("clientInfo", Json.obj [("name", .str "MCP Streamable HTTP Client"),
        ("version", .str "1.0.0")])])]

/-- Request envelope of McpStreamableHttpClient.list_tools (lines 298-303). -/
def http_tools_data : Json :=
  Json.obj [("jsonrpc", .str "2.0"), ("id", .num 1), ("method", .str "tools/list"),
    ("params", Json.obj [])]

/-- Request envelope of McpStreamableHttpClient.call_tool (lines 310-318). -/
def http_call_data (tool_name : String) (tool_args : Json) : Json :=
  Json.obj [("jsonrpc", .str "2.0"), ("id", .num 2), ("method", .str "tools/call"),
    ("params", Json.obj [("name", .str tool_name), ("arguments", tool_args)])]

/-- McpStreamableHttpClient.initialize_handshake (lines 271-295), generic over send. -/
def McpStreamableHttpClient.initialize_handshake (send : Json → Except String Json) :
    Except String Unit :=
  match send http_init_data with
  | .error e => .error e
  | .ok response =>
    match raise_on_error_field "initialize" response with
    | .error e => .error e
    | .ok _ =>
      match send notifications_initialized_data with
      | .error e => .error e
      | .ok response2 => raise_on_error_field "notifications/initialized" response2

/-- McpStreamableHttpClient.list_tools (lines 297-307), generic over send. -/
def McpStreamableHttpClient.list_tools (send : Json → Except String Json) :
    Except String Json :=
  match send http_tools_data with
  | .error e => .error e
  | .ok response =>
    match raise_on_error_field "tools/list" response with
    | .error e => .error e
    | .ok _ => extract_result_field "tools" response

/-- McpStreamableHttpClient.call_tool (lines 309-322), generic over send. -/
def McpStreamableHttpClient.call_tool (tool_name : String) (tool_args : Json)
    (send : Json → Except String Json) : Except String Json :=
  match send (http_call_data tool_name tool_args) with
  | .error e => .error e
  | .ok response =>
    match raise_on_error_field "tools/call" response with
    | .error e => .error e
    | .ok _ => extract_result_field "content" response

/-!
Embedding of src/utils/mcp_client.py, class McpClients (the Registry).
A managed transport is abstracted to the behaviour of the three interface
calls the Registry makes on it; each call either returns a value or raises.
-/

/-- Behaviour of one managed transport as the Registry observes it. -/
structure McpClientB where
  list_tools : Except String (List Json)
  call_tool : String → Json → Except String Json
  close : Except String Unit

/-- Registry state: the managed transports and the per-server catalog cache
(fields clients and tools model self private clients and tools dicts). -/
structure McpClientsState where
  clients : List (String × McpClientB)
  tools : List (String × List Json)

/-- Constructor arguments of an event-stream client as built by init_client. -/
structure SseClientConfig where
  name : String
  url : Json
  headers : Json
  timeout : Json
  sse_read_timeout : Json

/-- Constructor arguments of a streamable client as built by init_client. -/
structure StreamableClientConfig where
  name : String
  url : Json
  headers : Json
  timeout : Json

/-- The class of transport init_client constructs, with its arguments. -/
inductive BuiltClient where
  | sse (cfg : SseClientConfig) : BuiltClient
  | streamable_http (cfg : StreamableClientConfig) : BuiltClient

/-- Whether init_client chose the streamable class. -/
def BuiltClient.isStreamableHttp : BuiltClient → Bool
  | .streamable_http _ => true
  | .sse _ => false

/-- McpClients.init_client (lines 337-355): the transport kind defaults to
sse, is overridden by the transport config entry when present, and only the
exact value "streamable_http" (Python ==) selects the streamable class. -/
def McpClients.init_client (name : String) (config : List (String × Json)) : BuiltClient :=
  let transport := (dgetS config "transport").getD (Json.str "sse")
  if Json.beq transport (Json.str "streamable_http") then
    .streamable_http
      { name := name, url := (dgetS config "url").getD Json.null,
        headers := (dgetS config "headers").getD Json.null,
        timeout := (dgetS config "timeout").getD (Json.num 50) }
  else
    .sse
      { name := name, url := (dgetS config "url").getD Json.null,
        headers := (dgetS config "headers").getD Json.null,
        timeout := (dgetS config "timeout").getD (Json.num 50),
        sse_read_timeout := (dgetS config "sse_read_timeout").getD (Json.num 50) }

/-- The loop of McpClients.fetch_tools (lines 359-364): per server, query the
catalog, extend the flattened list, write the cache entry in place. The try
block wraps the whole loop (lines 358-366), so the first failure stops it and
is rewrapped as the single aggregate error; cache writes already performed
stay (self tools is mutated in place). -/
def McpClients.fetch_tools_loop (clients : List (String × McpClientB))
    (tools_cache : List (String × List Json)) (all_tools : List Json) :
    Except String (List Json) × List (String × List Json) :=
  match clients with
  | [] => (.ok all_tools, tools_cache)
  | (server_name, client) :: rest =>
    match client.list_tools with
    | .error e => (.error ("Error fetching tools: " ++ e), tools_cache)
    | .ok tools =>
        McpClients.fetch_tools_loop rest (dsetS tools_cache server_name tools)
          (all_tools ++ tools)

/-- McpClients.fetch_tools (lines 357-366): returns the flattened catalog or
the aggregate error, together with the cache as left behind. -/
def McpClients.fetch_tools (st : McpClientsState) :
    Except String (List Json) × List (String × List Json) :=
  McpClients.fetch_tools_loop st.clients st.tools []

/-- Inner loop of the routing-index build (lines 372-375): each tool of a
server present in the clients dict is indexed by its name field (Python
tool["name"], KeyError when absent) with dict-assignment overwrite. -/
def route_tools_of_server (client : McpClientB) (acc : List (Json × McpClientB)) :
    List Json → Except String (List (Json × McpClientB))
  | [] => .ok acc
  | tool :: rest =>
    match tool.pyIndex "name" with
    | .error e => .error e
    | .ok nm => route_tools_of_server client (dsetJ acc nm client) rest

/-- The routing-index build of execute_tool (lines 371-375): scan the cached
catalogs in iteration order; tools of a server absent from the clients dict
are skipped (the membership check guards the assignment). -/
def build_tool_clients (clients : List (String × McpClientB))
    (acc : List (Json × McpClientB)) :
    List (String × List Json) → Except String (List (Json × McpClientB))
  | [] => .ok acc
  | (server_name, tools) :: rest =>
    match dgetS clients server_name with
    | none => build_tool_clients clients acc rest
    | some client =>
      match route_tools_of_server client acc tools with
      | .error e => .error e
      | .ok acc' => build_tool_clients clients acc' rest

/-- The progress-logging block of execute_tool (lines 381-388), which runs
inside the try block: f-string logging has no control-flow effect, but a
result dict with a progress key and no total key raises KeyError, and a
non-numeric or zero total makes the division raise; some e is the message of
the exception such a result provokes, none means the block only logs. -/
def progress_log_failure (result : Json) : Option String :=
  match result with
  | .obj kvs =>
    if (dgetS kvs "progress").isSome then
      match dgetS kvs "total" with
      | none => some "KeyError: total"
      | some t =>
        match dgetS kvs "progress", t with
        | some (.num _), .num tot =>
            if tot = 0 then some "ZeroDivisionError: division by zero" else none
        | _, _ => some "TypeError: unsupported operand types for division"
    else none
  | _ => none

/-- McpClients.execute_tool (lines 368-393). The initial catalog fetch (line
369-370) and the routing-index build run before the try block, so their
exceptions propagate; everything from the unknown-tool check on is inside the
try and is converted to an error string. The returned cache is the per-server
catalog dict as left behind. -/
def McpClients.execute_tool (st : McpClientsState) (tool_name : String)
    (tool_args : Json) : Except String String × List (String × List Json) :=
  let fetched : Except String Unit × List (String × List Json) :=
    if st.tools.isEmpty then
      match McpClients.fetch_tools st with
      | (.error e, cache) => (.error e, cache)
      | (.ok _, cache) => (.ok (), cache)
    else (.ok (), st.tools)
  match fetched with
  | (.error e, cache) => (.error e, cache)
  | (.ok _, cache) =>
    match build_tool_clients st.clients [] cache with
    | .error e => (.error e, cache)
    | .ok tool_clients =>
      match dgetJ tool_clients (Json.str tool_name) with
      | none => (.ok ("Error executing tool: there is not a tool named " ++ tool_name), cache)
      | some client =>
        match client.call_tool tool_name tool_args with
        | .error e => (.ok ("Error executing tool: " ++ e), cache)
        | .ok result =>
          match progress_log_failure result with
          | some e => (.ok ("Error executing tool: " ++ e), cache)
          | none => (.ok ("Tool execution result: " ++ result.pyStr), cache)

/-- McpClients.close (lines 395-400): close every managed transport in turn,
each close wrapped in its own try block whose handler only logs. The result
records, per transport, the logged failure message if any. -/
def McpClients.close (clients : List (String × McpClientB)) :
    Except String (List (String × Option String)) :=
  match clients with
  | [] => .ok []
  | (name, client) :: rest =>
    let logged : Option String :=
      match client.close with
      | .ok _ => none
      | .error e => some e
    match McpClients.close rest with
    | .ok tail => .ok ((name, logged) :: tail)
    | .error e => .error e

/-- Specification-side retention predicate, written from the amended wording
of the history-filter claim, to be compared with historyItemKept: text is
always kept; an image is kept when vision is declared; audio when audio is
declared; video when vision or video is declared; a document when vision or
document is declared. -/
def historyItemKeptSpec (features : List ModelFeature) (item : PromptMessageContent) : Bool :=
  match item.type with
  | .text => true
  | .image => features.contains ModelFeature.vision
  | .audio => features.contains ModelFeature.audio
  | .video => features.contains ModelFeature.vision || features.contains ModelFeature.video
  | .document =>
      features.contains ModelFeature.vision || features.contains ModelFeature.document

/-!
Equality theory for the modelled values and the dict operations: Json.beq
decides propositional equality, and the dict operations behave as Python
dict assignment, lookup and pop.
-/

theorem json_beqList_sound (n : Nat)
    (ih : ∀ a b : Json, sizeOf a ≤ n → Json.beq a b = true → a = b) :
    ∀ xs ys : List Json, (∀ x ∈ xs, sizeOf x ≤ n) → Json.beqList xs ys = true → xs = ys := by
  intro xs
  induction xs with
  | nil =>
    intro ys _ h
    cases ys with
    | nil => rfl
    | cons y ys => simp [Json.beqList] at h
  | cons x xs ihx =>
    intro ys hsz h
    cases ys with
    | nil => simp [Json.beqList] at h
    | cons y ys =>
      simp only [Json.beqList, Bool.and_eq_true] at h
      have hx : x = y := ih x y (hsz x (by simp)) h.1
      have hxs : xs = ys := ihx ys (fun z hz => hsz z (by simp [hz])) h.2
      rw [hx, hxs]

theorem json_beqObj_sound (n : Nat)
    (ih : ∀ a b : Json, sizeOf a ≤ n → Json.beq a b = true → a = b) :
    ∀ xs ys : List (String × Json), (∀ x ∈ xs, sizeOf x.2 ≤ n) →
      Json.beqObj xs ys = true → xs = ys := by
  intro xs
  induction xs with
  | nil =>
    intro ys _ h
    cases ys with
    | nil => rfl
    | cons y ys => simp [Json.beqObj] at h
  | cons x xs ihx =>
    intro ys hsz h
    cases ys with
    | nil => simp [Json.beqObj] at h
    | cons y ys =>
      obtain ⟨k, v⟩ := x
      obtain ⟨l, w⟩ := y
      simp only [Json.beqObj, Bool.and_eq_true, beq_iff_eq] at h
      have hv : v = w := ih v w (hsz (k, v) (by simp)) h.1.2
      have hxs : xs = ys := ihx ys (fun z hz => hsz z (by simp [hz])) h.2
      rw [h.1.1, hv, hxs]

theorem json_beq_sound_aux : ∀ (n : Nat) (a b : Json), sizeOf a ≤ n →
    Json.beq a b = true → a = b := by
  intro n
  induction n with
  | zero =>
    intro a b ha _h
    exact absurd ha (by cases a <;> simp)
  | succ n ih =>
    intro a b ha h
    cases a <;> cases b <;> simp_all [Json.beq]
    case arr.arr xs ys =>
      refine json_beqList_sound n ih xs ys (fun x hx => ?_) h
      have h1 : sizeOf x < sizeOf xs := List.sizeOf_lt_of_mem hx
      have h2 : sizeOf (Json.arr xs) = 1 + sizeOf xs := by simp
      omega
    case obj.obj xs ys =>
      refine json_beqObj_sound n ih xs ys (fun x hx => ?_) h
      have h1 : sizeOf x < sizeOf xs := List.sizeOf_lt_of_mem hx
      have h2 : sizeOf x = 1 + sizeOf x.1 + sizeOf x.2 := by cases x; simp
      omega

theorem json_beq_refl_aux : ∀ (n : Nat) (a : Json), sizeOf a ≤ n → Json.beq a a = true := by
  intro n
  induction n with
  | zero => intro a ha; exact absurd ha (by cases a <;> simp)
  | succ n ih =>
    intro a ha
    cases a <;> simp_all [Json.beq]
    case arr xs =>
      induction xs with
      | nil => simp [Json.beqList]
      | cons x xs ihx =>
        simp only [Json.beqList, Bool.and_eq_true]
        constructor
        · refine ih x ?_
          have h2 : sizeOf (x :: xs) = 1 + sizeOf x + sizeOf xs := by simp
          have h3 : sizeOf (Json.arr (x :: xs)) = 1 + sizeOf (x :: xs) := by simp
          omega
        · apply ihx
          have h2 : sizeOf (x :: xs) = 1 + sizeOf x + sizeOf xs := by simp
          have h3 : sizeOf (Json.arr (x :: xs)) = 1 + sizeOf (x :: xs) := by simp
          have h4 : sizeOf (Json.arr xs) = 1 + sizeOf xs := by simp
          omega
    case obj xs =>
      induction xs with
      | nil => simp [Json.beqObj]
      | cons x xs ihx =>
        obtain ⟨k, v⟩ := x
        simp only [Json.beqObj, Bool.and_eq_true, beq_iff_eq]
        refine ⟨⟨by simp, ?_⟩, ?_⟩
        · refine ih v ?_
          have h2 : sizeOf ((k, v) :: xs) = 1 + sizeOf (k, v) + sizeOf xs := by simp
          have h3 : sizeOf (k, v) = 1 + sizeOf k + sizeOf v := by simp
          have h4 : sizeOf (Json.obj ((k, v) :: xs)) = 1 + sizeOf ((k, v) :: xs) := by simp
          omega
        · apply ihx
          have h2 : sizeOf ((k, v) :: xs) = 1 + sizeOf (k, v) + sizeOf xs := by simp
          have h3 : sizeOf (Json.obj ((k, v) :: xs)) = 1 + sizeOf ((k, v) :: xs) := by simp
          have h4 : sizeOf (Json.obj xs) = 1 + sizeOf xs := by simp
          omega

/-- Json.beq decides equality of modelled values. -/
theorem Json.beq_iff (a b : Json) : Json.beq a b = true ↔ a = b := by
  constructor
  · exact json_beq_sound_aux (sizeOf a) a b le_rfl
  · rintro rfl
    exact json_beq_refl_aux (sizeOf a) a le_rfl

theorem Json.beq_false_of_ne {a b : Json} (h : a ≠ b) : Json.beq a b = false := by
  cases hb : Json.beq a b with
  | false => rfl
  | true => exact absurd ((Json.beq_iff a b).1 hb) h

/-- Looking up the key just assigned returns the assigned value. -/
theorem dgetJ_dsetJ_self {α : Type} (d : List (Json × α)) (k : Json) (v : α) :
    dgetJ (dsetJ d k v) k = some v := by
  induction d with
  | nil => simp [dsetJ, dgetJ, (Json.beq_iff k k).2 rfl]
  | cons p rest ih =>
    obtain ⟨k', v'⟩ := p
    by_cases h : Json.beq k' k = true
    · simp [dsetJ, h, dgetJ, (Json.beq_iff k k).2 rfl]
    · simp only [Bool.not_eq_true] at h
      simp [dsetJ, h, dgetJ, ih]

/-- A key absent before assignment at a different key stays absent. -/
theorem dmemJ_dsetJ_ne {α : Type} (d : List (Json × α)) (k' k : Json) (v : α)
    (hne : k' ≠ k) (habs : dmemJ d k = false) : dmemJ (dsetJ d k' v) k = false := by
  induction d with
  | nil => simp [dsetJ, dmemJ, dgetJ, Json.beq_false_of_ne hne]
  | cons p rest ih =>
    obtain ⟨k0, v0⟩ := p
    simp only [dmemJ, dgetJ] at habs
    by_cases h0 : Json.beq k0 k = true
    · simp [h0] at habs
    · simp only [Bool.not_eq_true] at h0
      simp only [h0, Bool.false_eq_true, if_false] at habs
      by_cases h1 : Json.beq k0 k' = true
      · simp [dsetJ, h1, dmemJ, dgetJ, Json.beq_false_of_ne hne, habs]
      · simp only [Bool.not_eq_true] at h1
        have := ih habs
        simp only [dmemJ, dgetJ] at this
        simp [dsetJ, h1, dmemJ, dgetJ, h0, this]

/-- Popping a freshly assigned, previously absent key restores the dict. -/
theorem dpopJ_dsetJ_not_mem {α : Type} (d : List (Json × α)) (k : Json) (v : α)
    (habs : dmemJ d k = false) : dpopJ (dsetJ d k v) k = d := by
  induction d with
  | nil => simp [dsetJ, dpopJ, (Json.beq_iff k k).2 rfl]
  | cons p rest ih =>
    obtain ⟨k0, v0⟩ := p
    simp only [dmemJ, dgetJ] at habs
    by_cases h0 : Json.beq k0 k = true
    · simp [h0] at habs
    · simp only [Bool.not_eq_true] at h0
      simp only [h0, Bool.false_eq_true, if_false] at habs
      have := ih habs
      simp [dsetJ, h0, dpopJ, this]

/-- Every entry after an assignment either carries the assigned key or was
already present. -/
theorem mem_dsetJ {α : Type} (d : List (Json × α)) (k : Json) (v : α) :
    ∀ r ∈ dsetJ d k v, r.1 = k ∨ r ∈ d := by
  induction d with
  | nil => simp [dsetJ]
  | cons p rest ih =>
    obtain ⟨k0, v0⟩ := p
    intro r hr
    by_cases h0 : Json.beq k0 k = true
    · simp only [dsetJ, h0, if_true, List.mem_cons] at hr
      rcases hr with h | h
      · exact Or.inl (by rw [h])
      · exact Or.inr (List.mem_cons_of_mem _ h)
    · simp only [Bool.not_eq_true] at h0
      simp only [dsetJ, h0, Bool.false_eq_true, if_false, List.mem_cons] at hr
      rcases hr with h | h
      · exact Or.inr (by simp [h])
      · rcases ih r h with h1 | h1
        · exact Or.inl h1
        · exact Or.inr (List.mem_cons_of_mem _ h1)

/-- A dict none of whose entries carries the key has no binding for it. -/
theorem dgetJ_eq_none {α : Type} (d : List (Json × α)) (k : Json)
    (h : ∀ r ∈ d, r.1 ≠ k) : dgetJ d k = none := by
  induction d with
  | nil => rfl
  | cons p rest ih =>
    obtain ⟨k0, v0⟩ := p
    have hk0 : k0 ≠ k := h (k0, v0) (by simp)
    simp only [dgetJ, Json.beq_false_of_ne hk0, Bool.false_eq_true, if_false]
    exact ih fun r hr => h r (List.mem_cons_of_mem _ hr)

/-- Dict assignment preserves pairwise-distinct keys. -/
theorem dsetJ_pairwise {α : Type} (d : List (Json × α)) (k : Json) (v : α)
    (h : List.Pairwise (fun a b : Json × α => a.1 ≠ b.1) d) :
    List.Pairwise (fun a b : Json × α => a.1 ≠ b.1) (dsetJ d k v) := by
  induction d with
  | nil => simp [dsetJ]
  | cons p rest ih =>
    obtain ⟨k0, v0⟩ := p
    rcases List.pairwise_cons.1 h with ⟨hhead, htail⟩
    by_cases h0 : Json.beq k0 k = true
    · have hk : k0 = k := (Json.beq_iff k0 k).1 h0
      simp only [dsetJ, h0, if_true]
      refine List.pairwise_cons.2 ⟨fun r hr => ?_, htail⟩
      have := hhead r hr
      simpa [← hk] using this
    · simp only [Bool.not_eq_true] at h0
      simp only [dsetJ, h0, Bool.false_eq_true, if_false]
      refine List.pairwise_cons.2 ⟨fun r hr => ?_, ih htail⟩
      rcases mem_dsetJ rest k v r hr with h1 | h1
      · rw [h1]
        intro hc
        exact absurd ((Json.beq_iff k0 k).2 hc) (by simp [h0])
      · exact hhead r h1

/-!
Correlation of responses by id on the event-stream transport.
-/

/-- The wait loop finds its own id even when responses for other ids are
delivered first: the earlier deliveries are stored and left in the table,
the matching envelope is returned and its entry removed. -/
theorem wait_for_response_spec (x : String) (pre : List (String × Json)) (env : Json)
    (rest : List Json) :
    ∀ dict, dmemJ dict (Json.str x) = false →
    (∀ p ∈ pre, Json.pyIndex p.2 "id" = .ok (Json.str p.1) ∧ p.1 ≠ x) →
    Json.pyIndex env "id" = .ok (Json.str x) →
    wait_for_response (Json.str x) dict (pre.map Prod.snd ++ env :: rest)
      = some (env, pre.foldl (fun d p => dsetJ d (Json.str p.1) p.2) dict) := by
  induction pre with
  | nil =>
    intro dict habs hpre henv
    simp only [List.map_nil, List.nil_append, List.foldl_nil, wait_for_response,
      listen_message_event, henv]
    have hmem : dmemJ (dsetJ dict (Json.str x) env) (Json.str x) = true := by
      simp [dmemJ, dgetJ_dsetJ_self]
    simp [hmem, dgetJ_dsetJ_self, dpopJ_dsetJ_not_mem dict (Json.str x) env habs]
  | cons p pre ih =>
    intro dict habs hpre henv
    obtain ⟨hp1, hp2⟩ := hpre p (by simp)
    have hne : Json.str p.1 ≠ Json.str x := by
      intro h
      injection h with h'
      exact hp2 h'
    have habs' := dmemJ_dsetJ_ne dict (Json.str p.1) (Json.str x) p.2 hne habs
    simp only [List.map_cons, List.cons_append, wait_for_response,
      listen_message_event, hp1]
    simp only [habs', Bool.false_eq_true, if_false, List.foldl_cons]
    exact ih (dsetJ dict (Json.str p.1) p.2) habs'
      (fun q hq => hpre q (List.mem_cons_of_mem _ hq)) henv

/-- Claim C2: for an event-stream transport, a request carrying id X blocks
until the response with id X is in the pending-response table, returns
exactly that response, and removes its table entry exactly once, even when
responses for other ids are delivered first (those stay in the table); and
the listener insertion keeps table keys pairwise distinct, so an id appears
at most once at any time. -/
theorem claim_C2 (st : McpSseClientState) (u : String) (kvs : List (String × Json))
    (x : String) (pre : List (String × Json)) (env : Json) (rest : List Json)
    (hep : st.endpoint_url = some u)
    (habs : dmemJ st.message_dict (Json.str x) = false)
    (hid : dgetS kvs "id" = some (Json.str x))
    (hpre : ∀ p ∈ pre, Json.pyIndex p.2 "id" = .ok (Json.str p.1) ∧ p.1 ≠ x)
    (henv : Json.pyIndex env "id" = .ok (Json.str x)) :
    McpSseClient.send_message st true (pre.map Prod.snd ++ env :: rest) (Json.obj kvs)
      = .ok (some (env, pre.foldl (fun d p => dsetJ d (Json.str p.1) p.2) st.message_dict))
    ∧ dmemJ (pre.foldl (fun d p => dsetJ d (Json.str p.1) p.2) st.message_dict)
        (Json.str x) = false
    ∧ (∀ (d : List (Json × Json)) (m : Json) (d₂ : List (Json × Json)),
        List.Pairwise (fun a b : Json × Json => a.1 ≠ b.1) d →
        listen_message_event d m = .ok d₂ →
        List.Pairwise (fun a b : Json × Json => a.1 ≠ b.1) d₂) := by
  refine ⟨?_, ?_, ?_⟩
  · simp only [McpSseClient.send_message, hep, if_true]
    have hkey : (Json.obj kvs).hasKey "id" = true := by simp [Json.hasKey, hid]
    simp only [hkey, if_true, Json.pyIndex, hid]
    rw [wait_for_response_spec x pre env rest st.message_dict habs hpre henv]
  · clear hid henv hep
    induction pre generalizing st with
    | nil => exact habs
    | cons p pre ih =>
      obtain ⟨hp1, hp2⟩ := hpre p (by simp)
      have hne : Json.str p.1 ≠ Json.str x := by
        intro h
        injection h with h'
        exact hp2 h'
      simp only [List.foldl_cons]
      exact ih ⟨st.endpoint_url, dsetJ st.message_dict (Json.str p.1) p.2,
          st.thread_exception⟩
        (dmemJ_dsetJ_ne st.message_dict (Json.str p.1) (Json.str x) p.2 hne habs)
        (fun q hq => hpre q (List.mem_cons_of_mem _ hq))
  · intro d m d₂ hpw heq
    cases hidx : m.pyIndex "id" with
    | error e => simp [listen_message_event, hidx] at heq
    | ok i =>
      simp only [listen_message_event, hidx, Except.ok.injEq] at heq
      rw [← heq]
      exact dsetJ_pairwise d i m hpw

/-- Witness for claim C2 at a concrete run: the response for id y arrives
first, the request with id x still receives its own response and its entry
is removed while the y entry stays. -/
theorem claim_C2_witness :
    McpSseClient.send_message ⟨some "http://h/messages", [], none⟩ true
        ([("y", Json.obj [("id", Json.str "y")])].map Prod.snd ++
          Json.obj [("id", Json.str "x"), ("result", Json.str "fine")] :: [])
        (Json.obj [("id", Json.str "x")])
      = .ok (some (Json.obj [("id", Json.str "x"), ("result", Json.str "fine")],
          [("y", Json.obj [("id", Json.str "y")])].foldl
            (fun d p => dsetJ d (Json.str p.1) p.2) [])) :=
  (claim_C2 ⟨some "http://h/messages", [], none⟩ "http://h/messages"
    [("id", Json.str "x")] "x" [("y", Json.obj [("id", Json.str "y")])]
    (Json.obj [("id", Json.str "x"), ("result", Json.str "fine")]) []
    rfl rfl rfl
    (by
      intro p hp
      simp only [List.mem_singleton] at hp
      subst hp
      exact ⟨rfl, by decide⟩)
    rfl).1

/-- Claim C3: for an event-stream transport under construction, an endpoint
event whose resolved URL differs from the connection URL in scheme or host
makes the constructor wait fail (the recorded origin-mismatch error is
raised); a matching-origin endpoint makes it succeed with the session marked
Connected and the endpoint recorded. -/
theorem claim_C3 (urljoin : String → String → String) (urlparse : String → UrlParts)
    (url data : String) :
    (((urlparse url).scheme ≠ (urlparse (urljoin url data)).scheme ∨
      (urlparse url).netloc ≠ (urlparse (urljoin url data)).netloc) →
      ∃ e, McpSseClient.connect_wait (listen_endpoint_event urljoin urlparse url data)
        = .error e)
    ∧ ((urlparse url).scheme = (urlparse (urljoin url data)).scheme ∧
       (urlparse url).netloc = (urlparse (urljoin url data)).netloc →
       McpSseClient.connect_wait (listen_endpoint_event urljoin urlparse url data) = .ok ()
       ∧ (listen_endpoint_event urljoin urlparse url data).connected = true
       ∧ (listen_endpoint_event urljoin urlparse url data).endpoint_url
           = some (urljoin url data)) := by
  constructor
  · intro hmis
    by_cases hcond : (urlparse url).netloc ≠ (urlparse (urljoin url data)).netloc ∨
        (urlparse url).scheme ≠ (urlparse (urljoin url data)).scheme
    · refine ⟨"Endpoint origin does not match connection origin: " ++ urljoin url data, ?_⟩
      simp [listen_endpoint_event, hcond, McpSseClient.connect_wait]
    · exact absurd (Or.symm hmis) hcond
  · rintro ⟨hs, hn⟩
    have hcond : ¬ ((urlparse url).netloc ≠ (urlparse (urljoin url data)).netloc ∨
        (urlparse url).scheme ≠ (urlparse (urljoin url data)).scheme) := by
      push_neg
      exact ⟨hn, hs⟩
    refine ⟨?_, ?_, ?_⟩ <;> simp [listen_endpoint_event, hcond, McpSseClient.connect_wait]

/-- Witness for claim C3: with a resolver returning the event payload as is
and a parser splitting nothing, a cross-host endpoint fails construction and
a same-origin endpoint connects. -/
theorem claim_C3_witness :
    (∃ e, McpSseClient.connect_wait (listen_endpoint_event (fun _ d => d)
        (fun s => ⟨"http", s⟩) "http://h/sse" "http://evil/msg") = .error e)
    ∧ McpSseClient.connect_wait (listen_endpoint_event (fun u _ => u)
        (fun s => ⟨"http", s⟩) "http://h/sse" "http://h/sse") = .ok () :=
  ⟨(claim_C3 (fun _ d => d) (fun s => ⟨"http", s⟩) "http://h/sse" "http://evil/msg").1
      (Or.inr (by decide)),
   ((claim_C3 (fun u _ => u) (fun s => ⟨"http", s⟩) "http://h/sse" "http://h/sse").2
      ⟨rfl, rfl⟩).1⟩

/-- Counterexample to claim C4 as stated: with capability set containing only
vision, a video content item is of an unsupported modality (video is not
declared) yet the helper retains it, so not exactly the unsupported-modality
items are removed. -/
theorem claim_C4_counterexample :
    iter_cleanup_history_prompt_messages [ModelFeature.vision]
      [⟨"user", PromptContent.items [⟨PromptMessageContentType.video, "clip"⟩], none⟩]
    = [⟨"user", PromptContent.items [⟨PromptMessageContentType.video, "clip"⟩], none⟩]
    ∧ ModelFeature.video ∉ [ModelFeature.vision] := by
  constructor
  · rfl
  · decide

/-- Claim C4 as amended: the helper keeps exactly the items allowed by
historyItemKeptSpec (text always; image, video and document whenever vision
is declared; audio when audio is declared; video also when video is declared;
document also when document is declared) and leaves messages with non-list
content unchanged, preserving role and name of rebuilt messages. -/
theorem claim_C4 (features : List ModelFeature) (history : List PromptMessage) :
    iter_cleanup_history_prompt_messages features history =
      history.map fun msg =>
        match msg.content with
        | .items l =>
            { role := msg.role, content := .items (l.filter (historyItemKeptSpec features)),
              name := msg.name }
        | .plain _ => msg := by
  have hfun : ∀ item, historyItemKept features item = historyItemKeptSpec features item := by
    intro item
    by_cases hv : ModelFeature.vision ∈ features <;>
      by_cases ha : ModelFeature.audio ∈ features <;>
        by_cases hvd : ModelFeature.video ∈ features <;>
          by_cases hd : ModelFeature.document ∈ features <;>
            cases h : item.type <;>
              simp [historyItemKept, historyItemKeptSpec, h, hv, ha, hvd, hd]
  unfold iter_cleanup_history_prompt_messages
  refine List.map_congr_left fun msg _ => ?_
  cases hc : msg.content with
  | plain s => rfl
  | items l =>
    have hl : List.filter (historyItemKept features) l
        = List.filter (historyItemKeptSpec features) l :=
      List.filter_congr fun item _ => hfun item
    simp [hl]

/-- Claim C8: Registry close calls close on every managed transport even when
an earlier close raises: the loop never raises (the result is always ok) and
records, in order, one entry per managed transport with its logged failure,
so later transports are still closed after an earlier failure. -/
theorem claim_C8 (clients : List (String × McpClientB)) :
    McpClients.close clients = .ok (clients.map fun p =>
      (p.1, match p.2.close with
            | .ok _ => (none : Option String)
            | .error e => some e)) := by
  induction clients with
  | nil => rfl
  | cons p rest ih =>
    obtain ⟨name, client⟩ := p
    cases h : client.close with
    | ok u => simp [McpClients.close, h, ih]
    | error e => simp [McpClients.close, h, ih]

/-- Claim C9: the transport factory builds a streamable client exactly when
the transport config entry is the string streamable_http; any other value
(and an omitted entry) silently yields an event-stream client. -/
theorem claim_C9 (name : String) (config : List (String × Json)) :
    (McpClients.init_client name config).isStreamableHttp = true ↔
      dgetS config "transport" = some (Json.str "streamable_http") := by
  unfold McpClients.init_client
  have htrue : Json.beq (Json.str "streamable_http") (Json.str "streamable_http") = true := by
    decide
  cases h : dgetS config "transport" with
  | none =>
    have hbeq : Json.beq (Json.str "sse") (Json.str "streamable_http") = false := by decide
    simp [h, hbeq, BuiltClient.isStreamableHttp]
  | some t =>
    cases hbeq : Json.beq t (Json.str "streamable_http") with
    | true =>
      have ht : t = Json.str "streamable_http" := (Json.beq_iff _ _).1 hbeq
      subst ht
      simp [h, htrue, BuiltClient.isStreamableHttp]
    | false =>
      have ht : t ≠ Json.str "streamable_http" := by
        intro hc
        subst hc
        rw [htrue] at hbeq
        cases hbeq
      simp [h, hbeq, BuiltClient.isStreamableHttp, ht]

/-- Counterexample to claim C5 as stated: with a first server whose catalog
query succeeds and a second whose query fails, fetch_tools raises the single
aggregate error, but the per-server catalog cache is left holding the entry
produced for the first server inside the failed call, not left without
entries. -/
theorem claim_C5_counterexample :
    McpClients.fetch_tools
      ⟨[("s1", ⟨Except.ok [Json.obj [("name", Json.str "t1")]],
                fun _ _ => Except.ok Json.null, Except.ok ()⟩),
        ("s2", ⟨Except.error "boom", fun _ _ => Except.ok Json.null, Except.ok ()⟩)], []⟩
      = (Except.error "Error fetching tools: boom",
         [("s1", [Json.obj [("name", Json.str "t1")]])]) := rfl

/-- The fetch loop aborted by a failing server: catalogs fetched before the
failure are already written to the cache; the flattened result is discarded
and replaced by the aggregate error. -/
theorem fetch_tools_loop_spec (name : String) (c : McpClientB)
    (rest : List (String × McpClientB)) (e : String)
    (hc : c.list_tools = .error e) :
    ∀ (pre : List ((String × McpClientB) × List Json)) (acc : List Json)
      (cache : List (String × List Json)),
    (∀ p ∈ pre, p.1.2.list_tools = .ok p.2) →
    McpClients.fetch_tools_loop (pre.map Prod.fst ++ (name, c) :: rest) cache acc
      = (.error ("Error fetching tools: " ++ e),
         pre.foldl (fun d p => dsetS d p.1.1 p.2) cache) := by
  intro pre
  induction pre with
  | nil =>
    intro acc cache _
    simp [McpClients.fetch_tools_loop, hc]
  | cons p pre ih =>
    intro acc cache hpre
    obtain ⟨⟨nm, cl⟩, ts⟩ := p
    have hp : cl.list_tools = .ok ts := hpre ((nm, cl), ts) (by simp)
    simp only [List.map_cons, List.cons_append, McpClients.fetch_tools_loop, hp,
      List.foldl_cons]
    exact ih (acc ++ ts) (dsetS cache nm ts)
      (fun q hq => hpre q (List.mem_cons_of_mem _ hq))

/-- Claim C5 as amended: when any managed transport's catalog query fails,
fetch_tools raises a single aggregate error without per-server attribution
and discards the partial flattened result of that call, but the per-server
catalog cache keeps the entries written for the servers already processed
before the failure. -/
theorem claim_C5 (pre : List ((String × McpClientB) × List Json)) (name : String)
    (c : McpClientB) (rest : List (String × McpClientB))
    (cache0 : List (String × List Json)) (e : String)
    (hpre : ∀ p ∈ pre, p.1.2.list_tools = .ok p.2)
    (hc : c.list_tools = .error e) :
    McpClients.fetch_tools ⟨pre.map Prod.fst ++ (name, c) :: rest, cache0⟩
      = (.error ("Error fetching tools: " ++ e),
         pre.foldl (fun d p => dsetS d p.1.1 p.2) cache0) :=
  fetch_tools_loop_spec name c rest e hc pre [] cache0 hpre

/-- Witness for claim C5 at a concrete registry of two servers. -/
theorem claim_C5_witness :
    McpClients.fetch_tools
      ⟨[(("s1", (⟨Except.ok [Json.obj [("name", Json.str "t1")]],
          fun _ _ => Except.ok Json.null, Except.ok ()⟩ : McpClientB)),
            [Json.obj [("name", Json.str "t1")]])].map Prod.fst ++
          ("s2", ⟨Except.error "boom", fun _ _ => Except.ok Json.null, Except.ok ()⟩) :: [],
        []⟩
      = (Except.error "Error fetching tools: boom",
         [(("s1", (⟨Except.ok [Json.obj [("name", Json.str "t1")]],
             fun _ _ => Except.ok Json.null, Except.ok ()⟩ : McpClientB)),
               [Json.obj [("name", Json.str "t1")]])].foldl
           (fun d p => dsetS d p.1.1 p.2) []) :=
  claim_C5 [(("s1", ⟨Except.ok [Json.obj [("name", Json.str "t1")]],
      fun _ _ => Except.ok Json.null, Except.ok ()⟩),
        [Json.obj [("name", Json.str "t1")]])]
    "s2" ⟨Except.error "boom", fun _ _ => Except.ok Json.null, Except.ok ()⟩ [] [] "boom"
    (by
      intro p hp
      simp only [List.mem_singleton] at hp
      subst hp
      rfl)
    rfl

/-- Claim C10: on a streamable transport, a successful response with an empty
body returns an empty result before the content-type is inspected, whatever
the content-type; a non-empty body with a content-type that is neither an
event stream nor JSON raises the unsupported-content-type protocol error. -/
theorem claim_C10 (iter_sse : String → List SseEvent)
    (json_loads : String → Except String Json)
    (st : McpStreamableHttpClientState) (resp resp2 : HttpResponse)
    (hok : resp.is_success = true) (hempty : resp.content = "") :
    (∃ st', McpStreamableHttpClient.send_message iter_sse json_loads st resp
        = .ok (st', Json.obj []))
    ∧ (resp2.is_success = true → resp2.content ≠ "" →
       strContains ((dgetS resp2.headers "content-type").getD "None")
           "text/event-stream" = false →
       strContains ((dgetS resp2.headers "content-type").getD "None")
           "application/json" = false →
       McpStreamableHttpClient.send_message iter_sse json_loads st resp2
         = .error ("Unsupported Content-Type: " ++
             (dgetS resp2.headers "content-type").getD "None")) := by
  constructor
  · refine ⟨if (dgetS resp.headers "mcp-session-id").isSome = true then
        ⟨dgetS resp.headers "mcp-session-id"⟩ else st, ?_⟩
    simp [McpStreamableHttpClient.send_message, hok, hempty]
  · intro h1 h2 h3 h4
    simp [McpStreamableHttpClient.send_message, h1, h2, h3, h4]

/-- Witness for claim C10: empty body with a bogus content-type yields the
empty result; the same content-type with a non-empty body raises. -/
theorem claim_C10_witness :
    (∃ st', McpStreamableHttpClient.send_message (fun _ => []) (fun _ => .ok Json.null)
        ⟨none⟩ ⟨true, [("content-type", "text/weird")], ""⟩ = .ok (st', Json.obj []))
    ∧ McpStreamableHttpClient.send_message (fun _ => []) (fun _ => .ok Json.null)
        ⟨none⟩ ⟨true, [("content-type", "text/weird")], "x"⟩
        = .error ("Unsupported Content-Type: " ++
            (dgetS [("content-type", "text/weird")] "content-type").getD "None") :=
  ⟨(claim_C10 (fun _ => []) (fun _ => .ok Json.null) ⟨none⟩
      ⟨true, [("content-type", "text/weird")], ""⟩
      ⟨true, [("content-type", "text/weird")], "x"⟩ rfl rfl).1,
   (claim_C10 (fun _ => []) (fun _ => .ok Json.null) ⟨none⟩
      ⟨true, [("content-type", "text/weird")], ""⟩
      ⟨true, [("content-type", "text/weird")], "x"⟩ rfl rfl).2
     rfl (by decide) (by decide) (by decide)⟩

/-- The event-stream fold returns the payload of the last event when every
event is named message and every payload decodes. -/
theorem sse_message_fold_last (json_loads : String → Except String Json) :
    ∀ (es : List SseEvent) (ej : SseEvent) (pj : Json) (m0 : Json),
    (∀ ev ∈ es ++ [ej], ev.event = "message") →
    (∀ ev ∈ es, ∃ v, json_loads ev.data = .ok v) →
    json_loads ej.data = .ok pj →
    sse_message_fold json_loads (es ++ [ej]) m0 = .ok pj := by
  intro es
  induction es with
  | nil =>
    intro ej pj m0 hmsg _ hj
    have he : ej.event = "message" := hmsg ej (by simp)
    simp [sse_message_fold, he, hj]
  | cons e es ih =>
    intro ej pj m0 hmsg hparse hj
    have he : e.event = "message" := hmsg e (by simp)
    obtain ⟨v, hv⟩ := hparse e (by simp)
    simp only [List.cons_append, sse_message_fold, he, hv, ne_eq, not_true_eq_false,
      Bool.false_eq_true, if_false]
    exact ih ej pj v (fun x hx => hmsg x (List.mem_cons_of_mem _ hx))
      (fun x hx => hparse x (List.mem_cons_of_mem _ hx)) hj

/-- The event-stream fold raises as soon as the stream holds an event whose
name is not message (or an earlier payload already failed to decode). -/
theorem sse_message_fold_err (json_loads : String → Except String Json) :
    ∀ (l : List SseEvent) (m0 : Json), (∃ ev ∈ l, ev.event ≠ "message") →
    ∃ msg, sse_message_fold json_loads l m0 = .error msg := by
  intro l
  induction l with
  | nil =>
    intro m0 h
    obtain ⟨ev, hmem, _⟩ := h
    cases hmem
  | cons e rest ih =>
    intro m0 h
    by_cases he : e.event = "message"
    · obtain ⟨ev, hmem, hne⟩ := h
      have hmem' : ev ∈ rest := by
        rcases List.mem_cons.1 hmem with h1 | h1
        · rw [h1] at hne
          exact absurd he hne
        · exact h1
      cases hjl : json_loads e.data with
      | error err => exact ⟨err, by simp [sse_message_fold, he, hjl]⟩
      | ok m =>
        obtain ⟨msg, hm⟩ := ih m ⟨ev, hmem', hne⟩
        exact ⟨msg, by simp [sse_message_fold, he, hjl, hm]⟩
    · exact ⟨"Unknown Server-Sent Event: " ++ e.event, by simp [sse_message_fold, he]⟩

/-- Claim C6: for a streamable transport whose response body is an event
stream, if every framed event is named message then send_message returns the
JSON payload of the last event, earlier payloads being discarded; if any
framed event has a different name, send_message raises. -/
theorem claim_C6 (iter_sse : String → List SseEvent)
    (json_loads : String → Except String Json)
    (st : McpStreamableHttpClientState) (resp : HttpResponse)
    (hok : resp.is_success = true) (hne : resp.content ≠ "")
    (hct : strContains ((dgetS resp.headers "content-type").getD "None")
      "text/event-stream" = true) :
    (∀ (es : List SseEvent) (ej : SseEvent) (pj : Json),
      iter_sse resp.content = es ++ [ej] →
      (∀ ev ∈ es ++ [ej], ev.event = "message") →
      (∀ ev ∈ es, ∃ v, json_loads ev.data = .ok v) →
      json_loads ej.data = .ok pj →
      ∃ st', McpStreamableHttpClient.send_message iter_sse json_loads st resp
        = .ok (st', pj))
    ∧ ((∃ ev ∈ iter_sse resp.content, ev.event ≠ "message") →
      ∃ msg, McpStreamableHttpClient.send_message iter_sse json_loads st resp
        = .error msg) := by
  constructor
  · intro es ej pj hiter hmsg hparse hj
    have hfold := sse_message_fold_last json_loads es ej pj (Json.obj []) hmsg hparse hj
    refine ⟨if (dgetS resp.headers "mcp-session-id").isSome = true then
        ⟨dgetS resp.headers "mcp-session-id"⟩ else st, ?_⟩
    simp [McpStreamableHttpClient.send_message, hok, hne, hct, hiter, hfold]
  · intro hbad
    obtain ⟨msg, hm⟩ := sse_message_fold_err json_loads (iter_sse resp.content)
      (Json.obj []) hbad
    exact ⟨msg, by simp [McpStreamableHttpClient.send_message, hok, hne, hct, hm]⟩

/-- Witness for claim C6: two message events yield the payload of the last
one; a stream holding a ping event raises. -/
theorem claim_C6_witness :
    (∃ st', McpStreamableHttpClient.send_message
        (fun _ => [⟨"message", "a"⟩, ⟨"message", "b"⟩]) (fun s => .ok (Json.str s))
        ⟨none⟩ ⟨true, [("content-type", "text/event-stream")], "body"⟩
        = .ok (st', Json.str "b"))
    ∧ (∃ msg, McpStreamableHttpClient.send_message
        (fun _ => [⟨"ping", "a"⟩]) (fun s => .ok (Json.str s))
        ⟨none⟩ ⟨true, [("content-type", "text/event-stream")], "body"⟩
        = .error msg) :=
  ⟨(claim_C6 (fun _ => [⟨"message", "a"⟩, ⟨"message", "b"⟩]) (fun s => .ok (Json.str s))
      ⟨none⟩ ⟨true, [("content-type", "text/event-stream")], "body"⟩
      rfl (by decide) (by decide)).1
      [⟨"message", "a"⟩] ⟨"message", "b"⟩ (Json.str "b") rfl
      (by
        intro ev hev
        simp only [List.mem_append, List.mem_singleton, List.mem_cons] at hev
        rcases hev with (h | h) | h <;> simp_all)
      (by
        intro ev hev
        simp only [List.mem_singleton] at hev
        subst hev
        exact ⟨Json.str "a", rfl⟩)
      rfl,
   (claim_C6 (fun _ => [⟨"ping", "a"⟩]) (fun s => .ok (Json.str s))
      ⟨none⟩ ⟨true, [("content-type", "text/event-stream")], "body"⟩
      rfl (by decide) (by decide)).2
      ⟨⟨"ping", "a"⟩, by simp, by decide⟩⟩

/-- A decoded envelope carrying an error field makes the shared check raise. -/
theorem raise_on_error_field_err (label : String) (kvs : List (String × Json)) (v : Json)
    (h : dgetS kvs "error" = some v) :
    raise_on_error_field label (Json.obj kvs)
      = .error ("MCP Server " ++ label ++ " error: " ++ v.pyStr) := by
  simp [raise_on_error_field, Json.pyContains, Json.pyIndex, h]

/-- A decoded envelope without an error field passes the shared check. -/
theorem raise_on_error_field_ok (label : String) (kvs : List (String × Json))
    (h : dgetS kvs "error" = none) :
    raise_on_error_field label (Json.obj kvs) = .ok () := by
  simp [raise_on_error_field, Json.pyContains, h]

/-- With no result field, the extraction yields the empty array default. -/
theorem extract_result_field_none (field : String) (kvs : List (String × Json))
    (h : dgetS kvs "result" = none) :
    extract_result_field field (Json.obj kvs) = .ok (Json.arr []) := by
  simp [extract_result_field, Json.pyGet, h, dgetS]

/-- With an object result, the extraction yields its field or the empty
array when the field is absent. -/
theorem extract_result_field_obj (field : String) (kvs rkvs : List (String × Json))
    (h : dgetS kvs "result" = some (Json.obj rkvs)) :
    extract_result_field field (Json.obj kvs)
      = .ok ((dgetS rkvs field).getD (Json.arr [])) := by
  simp [extract_result_field, Json.pyGet, h]

/-- Claim C7: on both transport kinds, initialize, list_tools and call_tool
raise when a decoded response envelope carries an error field (for initialize
this covers the handshake response and the initialized-notification
response); without an error field, list_tools returns the result tools array
and call_tool the result content array, empty when absent. -/
theorem claim_C7 :
    (∀ (gid : String) (send : Json → Except String Json) (kvs : List (String × Json))
       (v : Json), send (sse_init_data gid) = .ok (Json.obj kvs) →
       dgetS kvs "error" = some v →
       ∃ m, McpSseClient.initialize_handshake gid send = .error m)
  ∧ (∀ (send : Json → Except String Json) (kvs : List (String × Json)) (v : Json),
       send http_init_data = .ok (Json.obj kvs) → dgetS kvs "error" = some v →
       ∃ m, McpStreamableHttpClient.initialize_handshake send = .error m)
  ∧ (∀ (gid : String) (send : Json → Except String Json)
       (kvs kvs2 : List (String × Json)) (v : Json),
       send (sse_init_data gid) = .ok (Json.obj kvs) → dgetS kvs "error" = none →
       send notifications_initialized_data = .ok (Json.obj kvs2) →
       dgetS kvs2 "error" = some v →
       ∃ m, McpSseClient.initialize_handshake gid send = .error m)
  ∧ (∀ (send : Json → Except String Json) (kvs kvs2 : List (String × Json)) (v : Json),
       send http_init_data = .ok (Json.obj kvs) → dgetS kvs "error" = none →
       send notifications_initialized_data = .ok (Json.obj kvs2) →
       dgetS kvs2 "error" = some v →
       ∃ m, McpStreamableHttpClient.initialize_handshake send = .error m)
  ∧ (∀ (gid : String) (send : Json → Except String Json) (kvs : List (String × Json))
       (v : Json), send (sse_tools_data gid) = .ok (Json.obj kvs) →
       dgetS kvs "error" = some v →
       ∃ m, McpSseClient.list_tools gid send = .error m)
  ∧ (∀ (send : Json → Except String Json) (kvs : List (String × Json)) (v : Json),
       send http_tools_data = .ok (Json.obj kvs) → dgetS kvs "error" = some v →
       ∃ m, McpStreamableHttpClient.list_tools send = .error m)
  ∧ (∀ (gid tn : String) (ta : Json) (send : Json → Except String Json)
       (kvs : List (String × Json)) (v : Json),
       send (sse_call_data gid tn ta) = .ok (Json.obj kvs) → dgetS kvs "error" = some v →
       ∃ m, McpSseClient.call_tool gid tn ta send = .error m)
  ∧ (∀ (tn : String) (ta : Json) (send : Json → Except String Json)
       (kvs : List (String × Json)) (v : Json),
       send (http_call_data tn ta) = .ok (Json.obj kvs) → dgetS kvs "error" = some v →
       ∃ m, McpStreamableHttpClient.call_tool tn ta send = .error m)
  ∧ (∀ (gid : String) (send : Json → Except String Json) (kvs : List (String × Json)),
       send (sse_tools_data gid) = .ok (Json.obj kvs) → dgetS kvs "error" = none →
       (dgetS kvs "result" = none →
         McpSseClient.list_tools gid send = .ok (Json.arr []))
       ∧ (∀ rkvs, dgetS kvs "result" = some (Json.obj rkvs) →
         McpSseClient.list_tools gid send = .ok ((dgetS rkvs "tools").getD (Json.arr []))))
  ∧ (∀ (send : Json → Except String Json) (kvs : List (String × Json)),
       send http_tools_data = .ok (Json.obj kvs) → dgetS kvs "error" = none →
       (dgetS kvs "result" = none →
         McpStreamableHttpClient.list_tools send = .ok (Json.arr []))
       ∧ (∀ rkvs, dgetS kvs "result" = some (Json.obj rkvs) →
         McpStreamableHttpClient.list_tools send
           = .ok ((dgetS rkvs "tools").getD (Json.arr []))))
  ∧ (∀ (gid tn : String) (ta : Json) (send : Json → Except String Json)
       (kvs : List (String × Json)),
       send (sse_call_data gid tn ta) = .ok (Json.obj kvs) → dgetS kvs "error" = none →
       (dgetS kvs "result" = none →
         McpSseClient.call_tool gid tn ta send = .ok (Json.arr []))
       ∧ (∀ rkvs, dgetS kvs "result" = some (Json.obj rkvs) →
         McpSseClient.call_tool gid tn ta send
           = .ok ((dgetS rkvs "content").getD (Json.arr []))))
  ∧ (∀ (tn : String) (ta : Json) (send : Json → Except String Json)
       (kvs : List (String × Json)),
       send (http_call_data tn ta) = .ok (Json.obj kvs) → dgetS kvs "error" = none →
       (dgetS kvs "result" = none →
         McpStreamableHttpClient.call_tool tn ta send = .ok (Json.arr []))
       ∧ (∀ rkvs, dgetS kvs "result" = some (Json.obj rkvs) →
         McpStreamableHttpClient.call_tool tn ta send
           = .ok ((dgetS rkvs "content").getD (Json.arr [])))) := by
  refine ⟨?_, ?_, ?_, ?_, ?_, ?_, ?_, ?_, ?_, ?_, ?_, ?_⟩
  · intro gid send kvs v hs herr
    exact ⟨"MCP Server initialize error: " ++ v.pyStr,
      by simp [McpSseClient.initialize_handshake, hs, raise_on_error_field_err _ kvs v herr]⟩
  · intro send kvs v hs herr
    exact ⟨"MCP Server initialize error: " ++ v.pyStr,
      by simp [McpStreamableHttpClient.initialize_handshake, hs,
        raise_on_error_field_err _ kvs v herr]⟩
  · intro gid send kvs kvs2 v hs herr hs2 herr2
    exact ⟨"MCP Server notifications/initialized error: " ++ v.pyStr,
      by simp [McpSseClient.initialize_handshake, hs, raise_on_error_field_ok _ kvs herr,
        hs2, raise_on_error_field_err _ kvs2 v herr2]⟩
  · intro send kvs kvs2 v hs herr hs2 herr2
    exact ⟨"MCP Server notifications/initialized error: " ++ v.pyStr,
      by simp [McpStreamableHttpClient.initialize_handshake, hs,
        raise_on_error_field_ok _ kvs herr, hs2, raise_on_error_field_err _ kvs2 v herr2]⟩
  · intro gid send kvs v hs herr
    exact ⟨"MCP Server tools/list error: " ++ v.pyStr,
      by simp [McpSseClient.list_tools, hs, raise_on_error_field_err _ kvs v herr]⟩
  · intro send kvs v hs herr
    exact ⟨"MCP Server tools/list error: " ++ v.pyStr,
      by simp [McpStreamableHttpClient.list_tools, hs,
        raise_on_error_field_err _ kvs v herr]⟩
  · intro gid tn ta send kvs v hs herr
    exact ⟨"MCP Server tools/call error: " ++ v.pyStr,
      by simp [McpSseClient.call_tool, hs, raise_on_error_field_err _ kvs v herr]⟩
  · intro tn ta send kvs v hs herr
    exact ⟨"MCP Server tools/call error: " ++ v.pyStr,
      by simp [McpStreamableHttpClient.call_tool, hs,
        raise_on_error_field_err _ kvs v herr]⟩
  · intro gid send kvs hs herr
    constructor
    · intro hres
      simp [McpSseClient.list_tools, hs, raise_on_error_field_ok _ kvs herr,
        extract_result_field_none _ kvs hres]
    · intro rkvs hres
      simp [McpSseClient.list_tools, hs, raise_on_error_field_ok _ kvs herr,
        extract_result_field_obj _ kvs rkvs hres]
  · intro send kvs hs herr
    constructor
    · intro hres
      simp [McpStreamableHttpClient.list_tools, hs, raise_on_error_field_ok _ kvs herr,
        extract_result_field_none _ kvs hres]
    · intro rkvs hres
      simp [McpStreamableHttpClient.list_tools, hs, raise_on_error_field_ok _ kvs herr,
        extract_result_field_obj _ kvs rkvs hres]
  · intro gid tn ta send kvs hs herr
    constructor
    · intro hres
      simp [McpSseClient.call_tool, hs, raise_on_error_field_ok _ kvs herr,
        extract_result_field_none _ kvs hres]
    · intro rkvs hres
      simp [McpSseClient.call_tool, hs, raise_on_error_field_ok _ kvs herr,
        extract_result_field_obj _ kvs rkvs hres]
  · intro tn ta send kvs hs herr
    constructor
    · intro hres
      simp [McpStreamableHttpClient.call_tool, hs, raise_on_error_field_ok _ kvs herr,
        extract_result_field_none _ kvs hres]
    · intro rkvs hres
      simp [McpStreamableHttpClient.call_tool, hs, raise_on_error_field_ok _ kvs herr,
        extract_result_field_obj _ kvs rkvs hres]

/-- Witness for claim C7: an error envelope makes the event-stream initialize
raise, and an error-free envelope makes the event-stream list_tools return
the tools array of its result. -/
theorem claim_C7_witness :
    (∃ m, McpSseClient.initialize_handshake "g"
      (fun _ => .ok (Json.obj [("error", Json.str "bad")])) = .error m)
    ∧ McpSseClient.list_tools "g"
        (fun _ => .ok (Json.obj [("result",
          Json.obj [("tools", Json.arr [Json.str "t"])])]))
      = .ok ((dgetS [("tools", Json.arr [Json.str "t"])] "tools").getD (Json.arr [])) :=
  ⟨claim_C7.1 "g" (fun _ => .ok (Json.obj [("error", Json.str "bad")]))
      [("error", Json.str "bad")] (Json.str "bad") rfl rfl,
   (claim_C7.2.2.2.2.2.2.2.2.1 "g"
      (fun _ => .ok (Json.obj [("result", Json.obj [("tools", Json.arr [Json.str "t"])])]))
      [("result", Json.obj [("tools", Json.arr [Json.str "t"])])] rfl rfl).2
      [("tools", Json.arr [Json.str "t"])] rfl⟩

/-- Counterexample to claim C1 as stated: with no catalog cached and a
managed transport whose catalog query fails, execute_tool propagates the
aggregate fetch exception to its caller instead of returning a string. -/
theorem claim_C1_counterexample :
    (McpClients.execute_tool
      ⟨[("s1", ⟨Except.error "boom", fun _ _ => Except.ok Json.null, Except.ok ()⟩)], []⟩
      "some-tool" (Json.obj [])).1
      = Except.error "Error fetching tools: boom" := rfl

/-- The routing-index inner loop succeeds on tools that carry a name field,
and every index entry either pre-exists or is keyed by some tool's name. -/
theorem route_tools_of_server_ok (client : McpClientB) :
    ∀ (ts : List Json) (acc : List (Json × McpClientB)),
    (∀ t ∈ ts, ∃ tkvs, t = Json.obj tkvs ∧ (dgetS tkvs "name").isSome = true) →
    ∃ acc', route_tools_of_server client acc ts = .ok acc'
      ∧ ∀ r ∈ acc', r ∈ acc ∨ ∃ t ∈ ts, Json.pyIndex t "name" = .ok r.1 := by
  intro ts
  induction ts with
  | nil =>
    intro acc _
    exact ⟨acc, rfl, fun r hr => Or.inl hr⟩
  | cons t ts ih =>
    intro acc hts
    obtain ⟨tkvs, hteq, hname⟩ := hts t (by simp)
    obtain ⟨v, hv⟩ : ∃ v, Json.pyIndex t "name" = .ok v := by
      subst hteq
      cases hget : dgetS tkvs "name" with
      | some w => exact ⟨w, by simp [Json.pyIndex, hget]⟩
      | none =>
        rw [hget] at hname
        simp at hname
    obtain ⟨acc', hrec, hmem⟩ :=
      ih (dsetJ acc v client) (fun q hq => hts q (List.mem_cons_of_mem _ hq))
    refine ⟨acc', by simp [route_tools_of_server, hv, hrec], ?_⟩
    intro r hr
    rcases hmem r hr with h1 | h1
    · rcases mem_dsetJ acc v client r h1 with h2 | h2
      · exact Or.inr ⟨t, by simp, by rw [hv, h2]⟩
      · exact Or.inl h2
    · obtain ⟨u, hu, hp⟩ := h1
      exact Or.inr ⟨u, List.mem_cons_of_mem _ hu, hp⟩

/-- The routing-index build succeeds when the cached tools carry name fields,
and every index entry either pre-exists or is keyed by a cached tool's name. -/
theorem build_tool_clients_ok (clients : List (String × McpClientB)) :
    ∀ (cache : List (String × List Json)) (acc : List (Json × McpClientB)),
    (∀ p ∈ cache, ∀ t ∈ p.2, ∃ tkvs, t = Json.obj tkvs ∧ (dgetS tkvs "name").isSome = true) →
    ∃ idx, build_tool_clients clients acc cache = .ok idx
      ∧ ∀ r ∈ idx, r ∈ acc ∨ ∃ p ∈ cache, ∃ t ∈ p.2, Json.pyIndex t "name" = .ok r.1 := by
  intro cache
  induction cache with
  | nil =>
    intro acc _
    exact ⟨acc, rfl, fun r hr => Or.inl hr⟩
  | cons p cache ih =>
    intro acc hc
    obtain ⟨sname, ts⟩ := p
    cases hcl : dgetS clients sname with
    | none =>
      obtain ⟨idx, hbuild, hmem⟩ := ih acc (fun q hq => hc q (List.mem_cons_of_mem _ hq))
      refine ⟨idx, by simp [build_tool_clients, hcl, hbuild], ?_⟩
      intro r hr
      rcases hmem r hr with h | h
      · exact Or.inl h
      · obtain ⟨q, hq, hrest⟩ := h
        exact Or.inr ⟨q, List.mem_cons_of_mem _ hq, hrest⟩
    | some client =>
      obtain ⟨acc', hroute, hmem1⟩ := route_tools_of_server_ok client ts acc
        (fun t ht => hc (sname, ts) (by simp) t ht)
      obtain ⟨idx, hbuild, hmem2⟩ := ih acc' (fun q hq => hc q (List.mem_cons_of_mem _ hq))
      refine ⟨idx, by simp [build_tool_clients, hcl, hroute, hbuild], ?_⟩
      intro r hr
      rcases hmem2 r hr with h | h
      · rcases hmem1 r h with h1 | h1
        · exact Or.inl h1
        · obtain ⟨t, ht, hp⟩ := h1
          exact Or.inr ⟨(sname, ts), by simp, t, ht, hp⟩
      · obtain ⟨q, hq, hrest⟩ := h
        exact Or.inr ⟨q, List.mem_cons_of_mem _ hq, hrest⟩

/-- Claim C1 as amended: once a catalog is cached (so no fetch is needed) and
every cached tool descriptor is an object carrying a name field, execute_tool
never raises: it returns a success or error string for every tool name and
argument mapping, and a name matching no cached tool yields the error string
naming the missing tool; with an empty cache the initial fetch runs before
the try block, so a failing fetch propagates as an exception (see the
counterexample). -/
theorem claim_C1 (st : McpClientsState) (tool_name : String) (tool_args : Json)
    (hcache : st.tools ≠ [])
    (hnames : ∀ p ∈ st.tools, ∀ t ∈ p.2,
      ∃ tkvs, t = Json.obj tkvs ∧ (dgetS tkvs "name").isSome = true) :
    (∃ s, (McpClients.execute_tool st tool_name tool_args).1 = .ok s)
    ∧ ((∀ p ∈ st.tools, ∀ t ∈ p.2, ∀ tkvs, t = Json.obj tkvs →
          dgetS tkvs "name" ≠ some (Json.str tool_name)) →
        (McpClients.execute_tool st tool_name tool_args).1
          = .ok ("Error executing tool: there is not a tool named " ++ tool_name)) := by
  have hne : st.tools.isEmpty = false := by
    cases h2 : st.tools with
    | nil => exact absurd h2 hcache
    | cons a l => rfl
  obtain ⟨idx, hbuild, hmem⟩ := build_tool_clients_ok st.clients st.tools [] hnames
  constructor
  · cases hget : dgetJ idx (Json.str tool_name) with
    | none =>
      exact ⟨"Error executing tool: there is not a tool named " ++ tool_name,
        by simp [McpClients.execute_tool, hne, hbuild, hget]⟩
    | some client =>
      cases hcall : client.call_tool tool_name tool_args with
      | error e =>
        exact ⟨"Error executing tool: " ++ e,
          by simp [McpClients.execute_tool, hne, hbuild, hget, hcall]⟩
      | ok result =>
        cases hprog : progress_log_failure result with
        | some e =>
          exact ⟨"Error executing tool: " ++ e,
            by simp [McpClients.execute_tool, hne, hbuild, hget, hcall, hprog]⟩
        | none =>
          exact ⟨"Tool execution result: " ++ result.pyStr,
            by simp [McpClients.execute_tool, hne, hbuild, hget, hcall, hprog]⟩
  · intro hmiss
    have hnone : dgetJ idx (Json.str tool_name) = none := by
      apply dgetJ_eq_none
      intro r hr
      rcases hmem r hr with h | h
      · simp at h
      · obtain ⟨p, hp, t, ht, hpy⟩ := h
        obtain ⟨tkvs, hteq, hname⟩ := hnames p hp t ht
        subst hteq
        have hgot : dgetS tkvs "name" = some r.1 := by
          cases hget2 : dgetS tkvs "name" with
          | none => simp [Json.pyIndex, hget2] at hpy
          | some w =>
            simp only [Json.pyIndex, hget2, Except.ok.injEq] at hpy
            rw [hpy]
        intro hcontra
        rw [hcontra] at hgot
        exact hmiss p hp (Json.obj tkvs) ht tkvs rfl hgot
    simp [McpClients.execute_tool, hne, hbuild, hnone]

/-- Witness for claim C1 at a concrete registry with a cached catalog: asking
for a tool name absent from the catalog returns the error string naming the
missing tool, raising nothing. -/
theorem claim_C1_witness :
    (McpClients.execute_tool
      ⟨[("s1", ⟨Except.ok [Json.obj [("name", Json.str "t1")]],
          fun _ _ => Except.ok Json.null, Except.ok ()⟩)],
        [("s1", [Json.obj [("name", Json.str "t1")]])]⟩
      "missing-tool" (Json.obj [])).1
      = .ok ("Error executing tool: there is not a tool named " ++ "missing-tool") :=
  (claim_C1
    ⟨[("s1", ⟨Except.ok [Json.obj [("name", Json.str "t1")]],
        fun _ _ => Except.ok Json.null, Except.ok ()⟩)],
      [("s1", [Json.obj [("name", Json.str "t1")]])]⟩
    "missing-tool" (Json.obj [])
    (by simp)
    (by
      intro p hp t ht
      simp only [List.mem_singleton] at hp
      subst hp
      simp only [List.mem_singleton] at ht
      subst ht
      exact ⟨[("name", Json.str "t1")], rfl, rfl⟩)).2
    (by
      intro p hp t ht tkvs hteq
      simp only [List.mem_singleton] at hp
      subst hp
      simp only [List.mem_singleton] at ht
      subst hteq
      simp only [Json.obj.injEq] at ht
      subst ht
      intro hcontra
      simp [dgetS] at hcontra)
